import Mathlib

/-!
Shallow embedding of the global hotkey detection engine of
`src/hotkey_listener.py` (class `HotkeyListener`).

The hook callback dispatches WM_KEYDOWN/WM_SYSKEYDOWN to `_on_key_down`
and WM_KEYUP/WM_SYSKEYUP to `_on_key_up`; those two handlers, together
with the pure predicates `_is_hotkey_pressed` and `_was_hotkey_key`,
form the state machine modelled here.  Key codes are the win32 virtual
key codes (plain naturals).  Time is modelled in integer milliseconds:
the source keeps `time.time()` seconds as floats with
`debounce_interval = 0.05`; every comparison the source performs is
`current - last >= interval`, which is faithfully represented over
integers with the interval scaled to 50.
-/

namespace Shortcut

/-- win32con.VK_LCONTROL. -/
def VK_LCONTROL : Nat := 162

/-- win32con.VK_RCONTROL. -/
def VK_RCONTROL : Nat := 163

/-- win32con.VK_LSHIFT. -/
def VK_LSHIFT : Nat := 160

/-- win32con.VK_RSHIFT. -/
def VK_RSHIFT : Nat := 161

/-- win32con.VK_LMENU (left Alt). -/
def VK_LMENU : Nat := 164

/-- win32con.VK_RMENU (right Alt). -/
def VK_RMENU : Nat := 165

/-- The hotkey configuration dictionary
`{ctrl: bool, shift: bool, alt: bool, key: str}`. -/
structure HKConfig where
  ctrl : Bool
  shift : Bool
  alt : Bool
  key : String
deriving DecidableEq

/-- The `key_mapping` lookup table appearing (identically) in
`_is_hotkey_pressed`, `_was_hotkey_key` and `_get_required_vk_codes`:
function keys, digit row, numpad digits, arrows, special keys and
punctuation, each mapped to its win32 virtual-key code. -/
def keyMapping : String → Option Nat
  | "f1" => some 112
  | "f2" => some 113
  | "f3" => some 114
  | "f4" => some 115
  | "f5" => some 116
  | "f6" => some 117
  | "f7" => some 118
  | "f8" => some 119
  | "f9" => some 120
  | "f10" => some 121
  | "f11" => some 122
  | "f12" => some 123
  | "0" => some 48
  | "1" => some 49
  | "2" => some 50
  | "3" => some 51
  | "4" => some 52
  | "5" => some 53
  | "6" => some 54
  | "7" => some 55
  | "8" => some 56
  | "9" => some 57
  | "num0" => some 96
  | "num1" => some 97
  | "num2" => some 98
  | "num3" => some 99
  | "num4" => some 100
  | "num5" => some 101
  | "num6" => some 102
  | "num7" => some 103
  | "num8" => some 104
  | "num9" => some 105
  | "up" => some 38
  | "down" => some 40
  | "left" => some 37
  | "right" => some 39
  | "space" => some 32
  | "tab" => some 9
  | "enter" => some 13
  | "esc" => some 27
  | "backspace" => some 8
  | "delete" => some 46
  | "home" => some 36
  | "end" => some 35
  | "pageup" => some 33
  | "pagedown" => some 34
  | "insert" => some 45
  | ";" => some 186
  | "=" => some 187
  | "," => some 188
  | "-" => some 189
  | "." => some 190
  | "/" => some 191
  | "`" => some 192
  | "[" => some 219
  | "\\" => some 220
  | "]" => some 221
  | "\x27" => some 222
  | _ => none

/-- The `key_name.lower()` call in the source: character-wise
lower-casing of the configured key name. -/
def pyLower (s : String) : String := ⟨s.data.map Char.toLower⟩

/-- The fallback branch `len(key_name) == 1 and key_name.isalpha()`
resolving a single alphabetic character to `ord(key_name.upper())`. -/
def singleAlphaCode (keyName : String) : Option Nat :=
  match keyName.toList with
  | [c] => if c.isAlpha then some c.toUpper.toNat else none
  | _ => none

/-- Resolution of an (already lower-cased) key name to a virtual-key
code: first the `key_mapping` table, then the single-letter fallback;
`none` when neither applies (`main_key_pressed` stays false in the
source, and `_was_hotkey_key` returns false). -/
def resolveKey (keyName : String) : Option Nat :=
  match keyMapping keyName with
  | some c => some c
  | none => singleAlphaCode keyName

/-- The two Qt signals the listener emits: `hotkey_pressed` (Activated)
and `hotkey_released` (Deactivated). -/
inductive HKEvent where
  | activated : HKEvent
  | deactivated : HKEvent
deriving DecidableEq

/-- The tracker state living on the `HotkeyListener` instance:
`pressed_keys`, `hotkey_active` and `last_hotkey_time`. -/
structure HKState where
  pressedKeys : Finset Nat
  hotkeyActive : Bool
  lastHotkeyTime : Int
deriving DecidableEq

/-- `debounce_interval`: 0.05 s in the source, 50 in our millisecond
scale. -/
def debounceInterval : Int := 50

/-- Tracker state set up by `__init__`: empty pressed set, inactive,
`last_hotkey_time = 0`. -/
def initState : HKState := ⟨∅, false, 0⟩

/-- `_is_hotkey_pressed`: each enabled modifier needs its left or right
variant in `pressed_keys` (a disabled modifier is vacuously satisfied),
and the resolved main key must be in `pressed_keys`. -/
def isHotkeyPressed (cfg : HKConfig) (pressed : Finset Nat) : Bool :=
  let ctrlPressed :=
    if cfg.ctrl then decide (VK_LCONTROL ∈ pressed) || decide (VK_RCONTROL ∈ pressed)
    else true
  let shiftPressed :=
    if cfg.shift then decide (VK_LSHIFT ∈ pressed) || decide (VK_RSHIFT ∈ pressed)
    else true
  let altPressed :=
    if cfg.alt then decide (VK_LMENU ∈ pressed) || decide (VK_RMENU ∈ pressed)
    else true
  let mainKeyPressed :=
    match resolveKey (pyLower cfg.key) with
    | some c => decide (c ∈ pressed)
    | none => false
  ctrlPressed && shiftPressed && altPressed && mainKeyPressed

/-- `_was_hotkey_key`: the released code is a left/right variant of an
enabled modifier, or the resolved main key. -/
def wasHotkeyKey (cfg : HKConfig) (vkCode : Nat) : Bool :=
  if cfg.ctrl && (vkCode == VK_LCONTROL || vkCode == VK_RCONTROL) then true
  else if cfg.shift && (vkCode == VK_LSHIFT || vkCode == VK_RSHIFT) then true
  else if cfg.alt && (vkCode == VK_LMENU || vkCode == VK_RMENU) then true
  else
    match resolveKey (pyLower cfg.key) with
    | some c => vkCode == c
    | none => false

/-- `_on_key_down(vk_code)` at wall-clock time `now`: add the code to
`pressed_keys`; if the combination matches and was not active and the
debounce window has passed, mark active, stamp the time and emit
`hotkey_pressed`; if it matches but is active or debounced, do nothing
further; if it does not match, reset `hotkey_active`. -/
def onKeyDown (cfg : HKConfig) (st : HKState) (vkCode : Nat) (now : Int) :
    HKState × List HKEvent :=
  let pressed := insert vkCode st.pressedKeys
  if isHotkeyPressed cfg pressed then
    if st.hotkeyActive then
      (⟨pressed, st.hotkeyActive, st.lastHotkeyTime⟩, [])
    else
      if debounceInterval ≤ now - st.lastHotkeyTime then
        (⟨pressed, true, now⟩, [HKEvent.activated])
      else
        (⟨pressed, st.hotkeyActive, st.lastHotkeyTime⟩, [])
  else
    (⟨pressed, false, st.lastHotkeyTime⟩, [])

/-- `_on_key_up(vk_code)`: if the code is in `pressed_keys`, remove it,
and when `_was_hotkey_key` holds, clear `hotkey_active` and emit
`hotkey_released`; a code that is not in `pressed_keys` is ignored
entirely. -/
def onKeyUp (cfg : HKConfig) (st : HKState) (vkCode : Nat) :
    HKState × List HKEvent :=
  if vkCode ∈ st.pressedKeys then
    let pressed := st.pressedKeys.erase vkCode
    if wasHotkeyKey cfg vkCode then
      (⟨pressed, false, st.lastHotkeyTime⟩, [HKEvent.deactivated])
    else
      (⟨pressed, st.hotkeyActive, st.lastHotkeyTime⟩, [])
  else
    (st, [])

/-- A raw keyboard event as handed to the hook callback: a key-down
with its wall-clock time, or a key-up (whose handler reads no clock). -/
inductive RawEvent where
  | down : Nat → Int → RawEvent
  | up : Nat → RawEvent
deriving DecidableEq

/-- One hook-callback dispatch: WM_KEYDOWN/WM_SYSKEYDOWN to
`_on_key_down`, WM_KEYUP/WM_SYSKEYUP to `_on_key_up`. -/
def step (cfg : HKConfig) (st : HKState) : RawEvent → HKState × List HKEvent
  | RawEvent.down vkCode now => onKeyDown cfg st vkCode now
  | RawEvent.up vkCode => onKeyUp cfg st vkCode

/-- Replay of a chronological list of raw events through the hook
callback, concatenating the emitted signals. -/
def run (cfg : HKConfig) (st : HKState) : List RawEvent → HKState × List HKEvent
  | [] => (st, [])
  | e :: rest =>
    let first := step cfg st e
    let later := run cfg first.1 rest
    (later.1, first.2 ++ later.2)

/-- The listener-level state: `is_running`, the hook handle `hook_id`
(`none` both before installation and after a failed
`SetWindowsHookExW`), and the tracker state. -/
structure ListenerState where
  isRunning : Bool
  hookId : Option Nat
  hk : HKState
deriving DecidableEq

/-- Listener state right after `__init__`. -/
def initListener : ListenerState := ⟨false, none, initState⟩

/-- `start()`: returns true at once when already running; otherwise
spawns the hook thread, sets `is_running` and returns true.  The hook
installation happens later on the spawned thread (`_hook_proc` calling
`SetWindowsHookExW`); its outcome is the `installResult` argument
(`none` = installation failed, in which case the thread only logs and
exits).  `start` itself never inspects that outcome. -/
def start (l : ListenerState) (installResult : Option Nat) :
    ListenerState × Bool :=
  if l.isRunning then (l, true)
  else ({ l with isRunning := true, hookId := installResult }, true)

/-- `stop()`: returns unchanged when not running; otherwise clears
`is_running`, unhooks and clears `hook_id`.  The tracker state
(`pressed_keys`, `hotkey_active`, `last_hotkey_time`) is not touched. -/
def stop (l : ListenerState) : ListenerState :=
  if l.isRunning then { l with isRunning := false, hookId := none }
  else l

/-- `register_hotkey(hotkey_config)`: stores the configuration and
returns True unconditionally; no validation is performed. -/
def register_hotkey (cfg : HKConfig) : HKConfig × Bool := (cfg, true)

/-- Key-down-only event lists (vkCode, time), as fed to `_on_key_down`
by the hook callback. -/
def downsOnly : List (Nat × Int) → List RawEvent :=
  List.map (fun p => RawEvent.down p.1 p.2)

/-- The pressed-key set accumulated by a key-down-only event list. -/
def downsSet (s : Finset Nat) : List (Nat × Int) → Finset Nat
  | [] => s
  | p :: rest => downsSet (insert p.1 s) rest

/-- Spec-side notion for C4, written from the spec words: a key is in
the net set of keys currently down exactly when the last raw event
mentioning it is a key-down.  `b` carries whether the key is down
before the list is replayed. -/
def netDown (k : Nat) (b : Bool) : List RawEvent → Bool
  | [] => b
  | RawEvent.down vkCode _ :: rest => netDown k (if vkCode = k then true else b) rest
  | RawEvent.up vkCode :: rest => netDown k (if vkCode = k then false else b) rest

/-- The default configuration from `__init__`:
`{ctrl: True, shift: True, alt: False, key: 'f12'}`. -/
def cfgDefault : HKConfig := ⟨true, true, false, ("f12")⟩

/-- A ctrl-plus-letter configuration used in concrete traces. -/
def cfgCtrlA : HKConfig := ⟨true, false, false, ("a")⟩

/-- A configuration whose key name resolves to no virtual-key code. -/
def cfgBadKey : HKConfig := ⟨true, true, false, ("nosuchkey")⟩

/-- Key-downs for LCTRL, LSHIFT, F12 and an F12 autorepeat, all past
the debounce horizon. -/
def traceC1 : List (Nat × Int) := [(162, 100), (160, 100), (123, 100), (123, 200)]

/-- LCTRL, LSHIFT, F12 pressed, then F12, LCTRL, LSHIFT released. -/
def traceC2 : List RawEvent :=
  [RawEvent.down 162 100, RawEvent.down 160 100, RawEvent.down 123 100,
   RawEvent.up 123, RawEvent.up 162, RawEvent.up 160]

/-- The combination engaged, F12 released and bounced back 20 ms after
the activation, while the modifiers stay held. -/
def traceC3 : List RawEvent :=
  [RawEvent.down 162 100, RawEvent.down 160 100, RawEvent.down 123 100,
   RawEvent.up 123, RawEvent.down 123 120]

/-- Both Ctrl variants and the letter A pressed, then RCTRL released. -/
def traceAltFree : List RawEvent :=
  [RawEvent.down 162 100, RawEvent.down 163 100, RawEvent.down 65 100,
   RawEvent.up 163]

/-- The same events with a press and release of the left Alt key
appended, under a configuration with `alt: False`. -/
def traceWithAlt : List RawEvent :=
  [RawEvent.down 162 100, RawEvent.down 163 100, RawEvent.down 65 100,
   RawEvent.up 163, RawEvent.down 164 200, RawEvent.up 164]

/-- A started listener that has observed LCTRL and LSHIFT going down
under the default configuration. -/
def listenerAfterModifiers : ListenerState :=
  { (start initListener (some 1)).1 with
    hk := (run cfgDefault (start initListener (some 1)).1.hk
      [RawEvent.down 162 100, RawEvent.down 160 100]).1 }

/-- Tracker state with both Ctrl variants and the letter A held and the
combination active since time 100. -/
def stBothCtrl : HKState := ⟨insert 65 (insert 163 (insert 162 ∅)), true, 100⟩

/-- The `key_mapping` table never maps a name to an Alt key code. -/
lemma keyMapping_ne_alt (s : String) (c : Nat) (h : keyMapping s = some c) :
    c ≠ VK_LMENU ∧ c ≠ VK_RMENU := by
  unfold keyMapping at h
  unfold VK_LMENU VK_RMENU
  split at h <;> first | (injection h with h; omega) | (injection h)

/-- Reduction of `Char.ofNat` at a valid code point. -/
lemma toNat_ofNat_valid (n : Nat) (h : n.isValidChar) : (Char.ofNat n).toNat = n := by
  rw [Char.ofNat, dif_pos h]
  rfl

/-- An alphabetic character has its code in the basic latin ranges. -/
lemma alpha_toNat_range (c : Char) (h : c.isAlpha = true) :
    (65 ≤ c.toNat ∧ c.toNat ≤ 90) ∨ (97 ≤ c.toNat ∧ c.toNat ≤ 122) := by
  simp only [Char.isAlpha, Char.isUpper, Char.isLower, Bool.or_eq_true, Bool.and_eq_true,
    decide_eq_true_eq] at h
  rcases h with ⟨h1, h2⟩ | ⟨h1, h2⟩
  · exact Or.inl ⟨h1, h2⟩
  · exact Or.inr ⟨h1, h2⟩

/-- Upper-casing an alphabetic character lands in `65..90`. -/
lemma toUpper_toNat_of_alpha (c : Char) (h : c.isAlpha = true) :
    65 ≤ c.toUpper.toNat ∧ c.toUpper.toNat ≤ 90 := by
  rcases alpha_toNat_range c h with ⟨h1, h2⟩ | ⟨h1, h2⟩
  · unfold Char.toUpper
    rw [if_neg (by omega)]
    exact ⟨h1, h2⟩
  · unfold Char.toUpper
    rw [if_pos ⟨h1, h2⟩, toNat_ofNat_valid _ (Or.inl (by omega))]
    omega

/-- The single-letter fallback resolves into `65..90`. -/
lemma singleAlphaCode_range (s : String) (c : Nat) (h : singleAlphaCode s = some c) :
    65 ≤ c ∧ c ≤ 90 := by
  unfold singleAlphaCode at h
  split at h
  · split at h
    · injection h with h
      subst h
      exact toUpper_toNat_of_alpha _ (by assumption)
    · injection h
  · injection h

/-- The resolved main key is never an Alt key code. -/
lemma resolveKey_ne_alt (s : String) (c : Nat) (h : resolveKey s = some c) :
    c ≠ VK_LMENU ∧ c ≠ VK_RMENU := by
  unfold resolveKey at h
  split at h
  · injection h with h
    subst h
    exact keyMapping_ne_alt s _ (by assumption)
  · have := singleAlphaCode_range s c h
    unfold VK_LMENU VK_RMENU
    omega

/-- Propositional characterization of `_is_hotkey_pressed`. -/
lemma isHotkeyPressed_eq_true_iff (cfg : HKConfig) (pressed : Finset Nat) :
    isHotkeyPressed cfg pressed = true ↔
      ((cfg.ctrl = true → VK_LCONTROL ∈ pressed ∨ VK_RCONTROL ∈ pressed) ∧
       (cfg.shift = true → VK_LSHIFT ∈ pressed ∨ VK_RSHIFT ∈ pressed) ∧
       (cfg.alt = true → VK_LMENU ∈ pressed ∨ VK_RMENU ∈ pressed) ∧
       (∃ c, resolveKey (pyLower cfg.key) = some c ∧ c ∈ pressed)) := by
  unfold isHotkeyPressed
  cases hc : cfg.ctrl <;> cases hs : cfg.shift <;> cases ha : cfg.alt <;>
    cases hk : resolveKey (pyLower cfg.key) <;>
    simp [hk, and_assoc]

/-- The combination predicate is monotone in the pressed-key set. -/
lemma isHotkeyPressed_mono (cfg : HKConfig) {S T : Finset Nat} (hsub : S ⊆ T)
    (h : isHotkeyPressed cfg S = true) : isHotkeyPressed cfg T = true := by
  rw [isHotkeyPressed_eq_true_iff] at h ⊢
  obtain ⟨h1, h2, h3, c, hc, hmem⟩ := h
  refine ⟨fun hh => (h1 hh).imp (fun x => hsub x) (fun x => hsub x),
    fun hh => (h2 hh).imp (fun x => hsub x) (fun x => hsub x),
    fun hh => (h3 hh).imp (fun x => hsub x) (fun x => hsub x),
    c, hc, hsub hmem⟩

/-- On an empty pressed-key set the predicate is false: the main key is
never satisfied. -/
lemma isHotkeyPressed_empty (cfg : HKConfig) :
    isHotkeyPressed cfg (∅ : Finset Nat) = false := by
  rw [Bool.eq_false_iff]
  intro h
  rw [isHotkeyPressed_eq_true_iff] at h
  obtain ⟨-, -, -, c, -, hmem⟩ := h
  exact absurd hmem (Finset.not_mem_empty c)

/-- A key name that does not resolve makes the predicate constantly
false. -/
lemma isHotkeyPressed_of_unresolved (cfg : HKConfig)
    (h : resolveKey (pyLower cfg.key) = none) (pressed : Finset Nat) :
    isHotkeyPressed cfg pressed = false := by
  rw [Bool.eq_false_iff]
  intro hh
  rw [isHotkeyPressed_eq_true_iff] at hh
  obtain ⟨-, -, -, c, hc, -⟩ := hh
  rw [h] at hc
  exact Option.noConfusion hc

/-- `_on_key_down` always records the code in `pressed_keys`. -/
lemma onKeyDown_pressedKeys (cfg : HKConfig) (st : HKState) (vkCode : Nat) (now : Int) :
    (onKeyDown cfg st vkCode now).1.pressedKeys = insert vkCode st.pressedKeys := by
  unfold onKeyDown
  by_cases h1 : isHotkeyPressed cfg (insert vkCode st.pressedKeys) = true <;>
    by_cases h2 : st.hotkeyActive = true <;>
    by_cases h3 : debounceInterval ≤ now - st.lastHotkeyTime <;>
    simp [h1, h2, h3]

/-- `_on_key_down` emits either nothing or a single `activated`. -/
lemma onKeyDown_events (cfg : HKConfig) (st : HKState) (vkCode : Nat) (now : Int) :
    (onKeyDown cfg st vkCode now).2 = [] ∨
      (onKeyDown cfg st vkCode now).2 = [HKEvent.activated] := by
  unfold onKeyDown
  by_cases h1 : isHotkeyPressed cfg (insert vkCode st.pressedKeys) = true <;>
    by_cases h2 : st.hotkeyActive = true <;>
    by_cases h3 : debounceInterval ≤ now - st.lastHotkeyTime <;>
    simp [h1, h2, h3]

/-- `_on_key_down` emits only when the recomputed predicate holds. -/
lemma onKeyDown_events_ne_nil (cfg : HKConfig) (st : HKState) (vkCode : Nat) (now : Int)
    (h : (onKeyDown cfg st vkCode now).2 ≠ []) :
    isHotkeyPressed cfg (insert vkCode st.pressedKeys) = true := by
  by_cases hm : isHotkeyPressed cfg (insert vkCode st.pressedKeys) = true
  · exact hm
  · exfalso
    apply h
    unfold onKeyDown
    simp [hm]

/-- `_on_key_up` always removes the code from `pressed_keys`. -/
lemma onKeyUp_pressedKeys (cfg : HKConfig) (st : HKState) (vkCode : Nat) :
    (onKeyUp cfg st vkCode).1.pressedKeys = st.pressedKeys.erase vkCode := by
  unfold onKeyUp
  by_cases hmem : vkCode ∈ st.pressedKeys <;>
    by_cases hwas : wasHotkeyKey cfg vkCode = true <;>
    simp [hmem, hwas, Finset.erase_eq_of_not_mem]

/-- `_on_key_up` on a code that is not recorded as pressed is a
complete no-op. -/
lemma onKeyUp_absent (cfg : HKConfig) (st : HKState) (vkCode : Nat)
    (h : vkCode ∉ st.pressedKeys) : onKeyUp cfg st vkCode = (st, []) := by
  unfold onKeyUp
  rw [if_neg h]

/-- `_on_key_up` emits `hotkey_released` exactly when the code was
recorded as pressed and `_was_hotkey_key` accepts it. -/
lemma onKeyUp_events_iff (cfg : HKConfig) (st : HKState) (vkCode : Nat) :
    (onKeyUp cfg st vkCode).2 = [HKEvent.deactivated] ↔
      vkCode ∈ st.pressedKeys ∧ wasHotkeyKey cfg vkCode = true := by
  unfold onKeyUp
  by_cases hmem : vkCode ∈ st.pressedKeys <;>
    by_cases hwas : wasHotkeyKey cfg vkCode = true <;>
    simp [hmem, hwas]

/-- `_on_key_up` stays silent exactly when the code was absent or not a
combination key. -/
lemma onKeyUp_events_nil_iff (cfg : HKConfig) (st : HKState) (vkCode : Nat) :
    (onKeyUp cfg st vkCode).2 = [] ↔
      vkCode ∉ st.pressedKeys ∨ wasHotkeyKey cfg vkCode = false := by
  unfold onKeyUp
  by_cases hmem : vkCode ∈ st.pressedKeys <;>
    by_cases hwas : wasHotkeyKey cfg vkCode = true <;>
    simp [hmem, hwas, Bool.eq_false_iff]

/-- Unfolding of `run` on an empty event list. -/
lemma run_nil (cfg : HKConfig) (st : HKState) : run cfg st [] = (st, []) := rfl

/-- Unfolding of `run` on a cons cell. -/
lemma run_cons (cfg : HKConfig) (st : HKState) (e : RawEvent) (rest : List RawEvent) :
    run cfg st (e :: rest) =
      ((run cfg (step cfg st e).1 rest).1,
        (step cfg st e).2 ++ (run cfg (step cfg st e).1 rest).2) := rfl

/-- `downsSet` only ever inserts. -/
lemma subset_downsSet (l : List (Nat × Int)) (s : Finset Nat) : s ⊆ downsSet s l := by
  induction l generalizing s with
  | nil => intro x hx; exact hx
  | cons p rest ih =>
    intro x hx
    exact ih (insert p.1 s) (Finset.mem_insert_of_mem hx)

/-- Invariant of a key-down-only replay: the pressed set accumulates
the downed codes, `hotkey_active` tracks the predicate, and the emitted
signals are exactly one `activated` when the replay starts inactive and
ends with the combination satisfied (none otherwise).  Requires all
event times to be past the debounce horizon of an inactive state. -/
lemma run_downs_invariant (cfg : HKConfig) (evts : List (Nat × Int)) :
    ∀ st : HKState,
      (∀ p ∈ evts, debounceInterval ≤ p.2) →
      st.hotkeyActive = isHotkeyPressed cfg st.pressedKeys →
      (st.hotkeyActive = false → st.lastHotkeyTime = 0) →
      (run cfg st (downsOnly evts)).1.pressedKeys = downsSet st.pressedKeys evts ∧
      (run cfg st (downsOnly evts)).1.hotkeyActive
          = isHotkeyPressed cfg (downsSet st.pressedKeys evts) ∧
      (run cfg st (downsOnly evts)).2 =
        (if st.hotkeyActive = true then []
         else if isHotkeyPressed cfg (downsSet st.pressedKeys evts) = true
           then [HKEvent.activated] else []) := by
  induction evts with
  | nil =>
    intro st _ hact _
    refine ⟨rfl, hact, ?_⟩
    rw [show downsSet st.pressedKeys ([] : List (Nat × Int)) = st.pressedKeys from rfl,
      ← hact]
    cases h : st.hotkeyActive <;> simp [h, downsOnly, run]
  | cons p rest ih =>
    intro st htimes hact htime
    have hstep : downsOnly (p :: rest) = RawEvent.down p.1 p.2 :: downsOnly rest := rfl
    have htimes1 : ∀ q ∈ rest, debounceInterval ≤ q.2 :=
      fun q hq => htimes q (List.mem_cons_of_mem p hq)
    by_cases hm : isHotkeyPressed cfg (insert p.1 st.pressedKeys) = true
    · by_cases ha : st.hotkeyActive = true
      · have hkd : step cfg st (RawEvent.down p.1 p.2) =
            (⟨insert p.1 st.pressedKeys, st.hotkeyActive, st.lastHotkeyTime⟩, []) := by
          show onKeyDown cfg st p.1 p.2 = _
          unfold onKeyDown
          simp [hm, ha]
        obtain ⟨ih1, ih2, ih3⟩ :=
          ih ⟨insert p.1 st.pressedKeys, st.hotkeyActive, st.lastHotkeyTime⟩ htimes1
            (by simp [ha, hm]) (by simp [ha])
        rw [hstep, run_cons, hkd]
        refine ⟨ih1, ih2, ?_⟩
        rw [ih3]
        simp [downsSet, ha]
      · have hlast : st.lastHotkeyTime = 0 := htime (Bool.eq_false_iff.mpr ha)
        have hguard : debounceInterval ≤ p.2 - st.lastHotkeyTime := by
          rw [hlast]
          simpa using htimes p (List.mem_cons_self p rest)
        have hkd : step cfg st (RawEvent.down p.1 p.2) =
            (⟨insert p.1 st.pressedKeys, true, p.2⟩, [HKEvent.activated]) := by
          show onKeyDown cfg st p.1 p.2 = _
          unfold onKeyDown
          simp [hm, ha, hguard]
        obtain ⟨ih1, ih2, ih3⟩ :=
          ih ⟨insert p.1 st.pressedKeys, true, p.2⟩ htimes1 (by simp [hm]) (by simp)
        rw [hstep, run_cons, hkd]
        have hsat : isHotkeyPressed cfg (downsSet (insert p.1 st.pressedKeys) rest) = true :=
          isHotkeyPressed_mono cfg (subset_downsSet rest (insert p.1 st.pressedKeys)) hm
        refine ⟨ih1, ih2, ?_⟩
        rw [ih3]
        simp [downsSet, ha, hsat]
    · have hnot : isHotkeyPressed cfg st.pressedKeys = false := by
        rw [Bool.eq_false_iff]
        intro hcontra
        exact hm (isHotkeyPressed_mono cfg (Finset.subset_insert p.1 st.pressedKeys) hcontra)
      have ha : st.hotkeyActive = false := by rw [hact, hnot]
      have hlast : st.lastHotkeyTime = 0 := htime ha
      have hkd : step cfg st (RawEvent.down p.1 p.2) =
          (⟨insert p.1 st.pressedKeys, false, st.lastHotkeyTime⟩, []) := by
        show onKeyDown cfg st p.1 p.2 = _
        unfold onKeyDown
        simp [hm]
      obtain ⟨ih1, ih2, ih3⟩ :=
        ih ⟨insert p.1 st.pressedKeys, false, st.lastHotkeyTime⟩ htimes1
          (Bool.eq_false_iff.mpr hm).symm
          (fun _ => hlast)
      rw [hstep, run_cons, hkd]
      refine ⟨ih1, ih2, ?_⟩
      rw [ih3]
      simp [downsSet, ha, Bool.eq_false_iff.mpr hm]

/-- Membership in the replayed pressed set is governed by the last raw
event mentioning the key. -/
lemma run_pressed_mem (cfg : HKConfig) (k : Nat) (evts : List RawEvent) :
    ∀ st : HKState,
      (k ∈ (run cfg st evts).1.pressedKeys ↔
        netDown k (decide (k ∈ st.pressedKeys)) evts = true) := by
  induction evts with
  | nil =>
    intro st
    simp [run, netDown]
  | cons e rest ih =>
    intro st
    cases e with
    | down vkCode t =>
      have hp : (step cfg st (RawEvent.down vkCode t)).1.pressedKeys
          = insert vkCode st.pressedKeys := onKeyDown_pressedKeys cfg st vkCode t
      have harg : decide (k ∈ insert vkCode st.pressedKeys)
          = (if vkCode = k then true else decide (k ∈ st.pressedKeys)) := by
        by_cases hv : vkCode = k
        · subst hv
          simp
        · rw [if_neg hv]
          simp [Finset.mem_insert, Ne.symm hv]
      rw [run_cons]
      show k ∈ (run cfg (step cfg st (RawEvent.down vkCode t)).1 rest).1.pressedKeys ↔
        netDown k (if vkCode = k then true else decide (k ∈ st.pressedKeys)) rest = true
      rw [ih (step cfg st (RawEvent.down vkCode t)).1, hp, harg]
    | up vkCode =>
      have hp : (step cfg st (RawEvent.up vkCode)).1.pressedKeys
          = st.pressedKeys.erase vkCode := onKeyUp_pressedKeys cfg st vkCode
      have harg : decide (k ∈ st.pressedKeys.erase vkCode)
          = (if vkCode = k then false else decide (k ∈ st.pressedKeys)) := by
        by_cases hv : vkCode = k
        · subst hv
          simp
        · rw [if_neg hv]
          simp [Finset.mem_erase, Ne.symm hv]
      rw [run_cons]
      show k ∈ (run cfg (step cfg st (RawEvent.up vkCode)).1 rest).1.pressedKeys ↔
        netDown k (if vkCode = k then false else decide (k ∈ st.pressedKeys)) rest = true
      rw [ih (step cfg st (RawEvent.up vkCode)).1, hp, harg]

/-- With `alt: False`, the predicate ignores insertion of an Alt key
code into the pressed set. -/
lemma isHotkeyPressed_insert_alt (cfg : HKConfig) (h : cfg.alt = false)
    (pressed : Finset Nat) (a : Nat) (ha : a = VK_LMENU ∨ a = VK_RMENU) :
    isHotkeyPressed cfg (insert a pressed) = isHotkeyPressed cfg pressed := by
  have hane : a ≠ VK_LCONTROL ∧ a ≠ VK_RCONTROL ∧ a ≠ VK_LSHIFT ∧ a ≠ VK_RSHIFT := by
    rcases ha with rfl | rfl <;>
      exact ⟨by decide, by decide, by decide, by decide⟩
  rw [Bool.eq_iff_iff, isHotkeyPressed_eq_true_iff, isHotkeyPressed_eq_true_iff]
  obtain ⟨h1, h2, h3, h4⟩ := hane
  constructor
  · rintro ⟨hc, hs, hal, c, hres, hmem⟩
    have hcalt := resolveKey_ne_alt (pyLower cfg.key) c hres
    refine ⟨?_, ?_, ?_, c, hres, ?_⟩
    · intro hh
      rcases hc hh with hx | hx <;>
        [left; right] <;>
        [exact (Finset.mem_insert.mp hx).resolve_left (fun he => h1 he.symm);
         exact (Finset.mem_insert.mp hx).resolve_left (fun he => h2 he.symm)]
    · intro hh
      rcases hs hh with hx | hx <;>
        [left; right] <;>
        [exact (Finset.mem_insert.mp hx).resolve_left (fun he => h3 he.symm);
         exact (Finset.mem_insert.mp hx).resolve_left (fun he => h4 he.symm)]
    · intro hh
      rw [h] at hh
      exact absurd hh (by simp)
    · refine (Finset.mem_insert.mp hmem).resolve_left ?_
      intro he
      rcases ha with rfl | rfl
      · exact hcalt.1 he
      · exact hcalt.2 he
  · rintro ⟨hc, hs, hal, c, hres, hmem⟩
    refine ⟨fun hh => (hc hh).imp Finset.mem_insert_of_mem Finset.mem_insert_of_mem,
      fun hh => (hs hh).imp Finset.mem_insert_of_mem Finset.mem_insert_of_mem,
      fun hh => (hal hh).imp Finset.mem_insert_of_mem Finset.mem_insert_of_mem,
      c, hres, Finset.mem_insert_of_mem hmem⟩

/-- With `alt: False`, the predicate ignores removal of an Alt key code
from the pressed set. -/
lemma isHotkeyPressed_erase_alt (cfg : HKConfig) (h : cfg.alt = false)
    (pressed : Finset Nat) (a : Nat) (ha : a = VK_LMENU ∨ a = VK_RMENU) :
    isHotkeyPressed cfg (pressed.erase a) = isHotkeyPressed cfg pressed := by
  have hane : a ≠ VK_LCONTROL ∧ a ≠ VK_RCONTROL ∧ a ≠ VK_LSHIFT ∧ a ≠ VK_RSHIFT := by
    rcases ha with rfl | rfl <;>
      exact ⟨by decide, by decide, by decide, by decide⟩
  obtain ⟨h1, h2, h3, h4⟩ := hane
  rw [Bool.eq_iff_iff, isHotkeyPressed_eq_true_iff, isHotkeyPressed_eq_true_iff]
  constructor
  · rintro ⟨hc, hs, hal, c, hres, hmem⟩
    exact ⟨fun hh => (hc hh).imp (fun hx => (Finset.mem_erase.mp hx).2)
        (fun hx => (Finset.mem_erase.mp hx).2),
      fun hh => (hs hh).imp (fun hx => (Finset.mem_erase.mp hx).2)
        (fun hx => (Finset.mem_erase.mp hx).2),
      fun hh => (hal hh).imp (fun hx => (Finset.mem_erase.mp hx).2)
        (fun hx => (Finset.mem_erase.mp hx).2),
      c, hres, (Finset.mem_erase.mp hmem).2⟩
  · rintro ⟨hc, hs, hal, c, hres, hmem⟩
    have hcalt := resolveKey_ne_alt (pyLower cfg.key) c hres
    refine ⟨?_, ?_, ?_, c, hres, ?_⟩
    · intro hh
      rcases hc hh with hx | hx
      · exact Or.inl (Finset.mem_erase.mpr ⟨fun he => h1 (he ▸ rfl), hx⟩)
      · exact Or.inr (Finset.mem_erase.mpr ⟨fun he => h2 (he ▸ rfl), hx⟩)
    · intro hh
      rcases hs hh with hx | hx
      · exact Or.inl (Finset.mem_erase.mpr ⟨fun he => h3 (he ▸ rfl), hx⟩)
      · exact Or.inr (Finset.mem_erase.mpr ⟨fun he => h4 (he ▸ rfl), hx⟩)
    · intro hh
      rw [h] at hh
      exact absurd hh (by simp)
    · refine Finset.mem_erase.mpr ⟨?_, hmem⟩
      intro he
      rcases ha with rfl | rfl
      · exact hcalt.1 he
      · exact hcalt.2 he

/-- With `alt: False`, releasing an Alt key is never counted as a
combination key by `_was_hotkey_key`. -/
lemma wasHotkeyKey_alt (cfg : HKConfig) (h : cfg.alt = false) (a : Nat)
    (ha : a = VK_LMENU ∨ a = VK_RMENU) : wasHotkeyKey cfg a = false := by
  unfold wasHotkeyKey
  cases hres : resolveKey (pyLower cfg.key) with
  | none =>
    rcases ha with rfl | rfl <;>
      simp [h, hres, VK_LMENU, VK_RMENU, VK_LCONTROL, VK_RCONTROL, VK_LSHIFT, VK_RSHIFT]
  | some c =>
    have hne := resolveKey_ne_alt (pyLower cfg.key) c hres
    rcases ha with rfl | rfl <;>
      simp [h, hres, VK_LMENU, VK_RMENU, VK_LCONTROL, VK_RCONTROL, VK_LSHIFT, VK_RSHIFT] <;>
      [exact fun he => hne.1 he.symm; exact fun he => hne.2 he.symm]

/-- C1: replaying any key-down-only event sequence from the initial
state (with event times past the debounce horizon) emits exactly one
Activated — and only when the final pressed set satisfies the
combination — while the pressed set accumulates the downed codes;
instantiating the statement at every prefix of the sequence places that
single emission at whichever key-down first completes the combination,
and shows that repeated autorepeat key-downs add no further events. -/
theorem c1_order_independent_single_activation (cfg : HKConfig)
    (evts : List (Nat × Int)) (htimes : ∀ p ∈ evts, debounceInterval ≤ p.2) :
    (run cfg initState (downsOnly evts)).2 =
      (if isHotkeyPressed cfg (downsSet ∅ evts) = true
        then [HKEvent.activated] else []) ∧
    (run cfg initState (downsOnly evts)).1.pressedKeys = downsSet ∅ evts := by
  obtain ⟨h1, h2, h3⟩ := run_downs_invariant cfg evts initState htimes
    (isHotkeyPressed_empty cfg).symm (fun _ => rfl)
  refine ⟨?_, h1⟩
  rw [h3]
  simp [initState]

/-- Witness for C1: the default config with LCTRL, LSHIFT, F12 downs
and an F12 autorepeat emits exactly one Activated. -/
theorem c1_order_independent_single_activation_witness :
    (run cfgDefault initState (downsOnly traceC1)).2 = [HKEvent.activated] ∧
    (run cfgDefault initState (downsOnly traceC1)).1.pressedKeys = downsSet ∅ traceC1 := by
  have h := c1_order_independent_single_activation cfgDefault traceC1 (by decide)
  refine ⟨?_, h.2⟩
  rw [h.1]
  decide

/-- C2 counterexample: with the default config, after the Activated and
the F12 release's Deactivated, releasing LCTRL and then LSHIFT each
emit another Deactivated, where the claim requires no events at all. -/
theorem c2_release_counterexample :
    (run cfgDefault initState traceC2).2 =
      [HKEvent.activated, HKEvent.deactivated, HKEvent.deactivated,
        HKEvent.deactivated] := by
  decide

/-- C2 amended: releasing F12 emits exactly one Deactivated, but the
subsequent releases of LCTRL and LSHIFT each emit a further Deactivated
(three in total on the concrete trace): `_on_key_up` emits exactly when
the released code is still in `pressed_keys` and `_was_hotkey_key`
accepts it, regardless of the active flag and of the predicate, and it
emits nothing exactly when the code is absent or not a combination
key. -/
theorem c2_release_events (cfg : HKConfig) (st : HKState) (vkCode : Nat) :
    ((onKeyUp cfg st vkCode).2 = [HKEvent.deactivated] ↔
      vkCode ∈ st.pressedKeys ∧ wasHotkeyKey cfg vkCode = true) ∧
    ((onKeyUp cfg st vkCode).2 = [] ↔
      vkCode ∉ st.pressedKeys ∨ wasHotkeyKey cfg vkCode = false) ∧
    (run cfgDefault initState traceC2).2.count HKEvent.deactivated = 3 :=
  ⟨onKeyUp_events_iff cfg st vkCode, onKeyUp_events_nil_iff cfg st vkCode, by decide⟩

/-- C3: a false-to-true transition of the predicate arriving within the
debounce interval of the last activation is suppressed entirely — no
event, active flag and timestamp unchanged, only the pressed set gains
the new code — and the concrete bounce trace (second satisfied
transition 20 ms after the activation) yields exactly one Activated. -/
theorem c3_debounce_suppression (cfg : HKConfig) (st : HKState) (vkCode : Nat) (now : Int)
    (hmatch : isHotkeyPressed cfg (insert vkCode st.pressedKeys) = true)
    (hact : st.hotkeyActive = false)
    (hdeb : now - st.lastHotkeyTime < debounceInterval) :
    onKeyDown cfg st vkCode now =
      (⟨insert vkCode st.pressedKeys, false, st.lastHotkeyTime⟩, []) ∧
    (run cfgDefault initState traceC3).2.count HKEvent.activated = 1 := by
  constructor
  · unfold onKeyDown
    rw [if_pos hmatch, if_neg (by rw [hact]; simp), if_neg (not_le.mpr hdeb), hact]
  · decide

/-- Witness for C3: the bounce of F12 20 ms after activation, with the
modifiers still held, is dropped without touching the state. -/
theorem c3_debounce_suppression_witness :
    onKeyDown cfgDefault ⟨insert 160 (insert 162 ∅), false, 100⟩ 123 120 =
      (⟨insert 123 (insert 160 (insert 162 ∅)), false, 100⟩, []) ∧
    (run cfgDefault initState traceC3).2.count HKEvent.activated = 1 :=
  c3_debounce_suppression cfgDefault ⟨insert 160 (insert 162 ∅), false, 100⟩ 123 120
    (by decide) rfl (by decide)

/-- C4: after replaying any raw event sequence from the initial state,
a key is in `pressed_keys` iff the last event mentioning it was a
key-down; and a key-up for an unrecorded code is a complete no-op. -/
theorem c4_pressed_keys_net_set (cfg : HKConfig) (evts : List RawEvent) (k : Nat) :
    (k ∈ (run cfg initState evts).1.pressedKeys ↔ netDown k false evts = true) ∧
    (∀ (st : HKState) (vkCode : Nat), vkCode ∉ st.pressedKeys →
      onKeyUp cfg st vkCode = (st, [])) := by
  constructor
  · have h := run_pressed_mem cfg k evts initState
    simpa [initState] using h
  · exact fun st vkCode hh => onKeyUp_absent cfg st vkCode hh

/-- Witness for C4 on the concrete press/release trace and a key-up of
an absent code. -/
theorem c4_pressed_keys_net_set_witness :
    (123 ∈ (run cfgDefault initState traceC2).1.pressedKeys ↔
      netDown 123 false traceC2 = true) ∧
    onKeyUp cfgDefault initState 99 = (initState, []) := by
  have h := c4_pressed_keys_net_set cfgDefault traceC2 123
  exact ⟨h.1, h.2 initState 99 (by decide)⟩

/-- C5 counterexample: a key name outside the table and not a single
letter is accepted by `register_hotkey` (it stores the config and
returns True) even though the name resolves to no virtual-key code —
the configuration is not rejected and no `UnresolvedKeyError` exists in
the code. -/
theorem c5_unresolved_accepted_counterexample :
    (register_hotkey cfgBadKey).2 = true ∧
    resolveKey (pyLower cfgBadKey.key) = none := by
  exact ⟨rfl, by decide⟩

/-- C5 amended: `register_hotkey` stores any configuration and returns
True unconditionally; when the key name resolves to no code, the
combination predicate is constantly false and `_on_key_down` never
emits — the misconfigured hotkey silently never fires instead of being
rejected with an error. -/
theorem c5_unresolved_key_never_fires (cfg : HKConfig)
    (h : resolveKey (pyLower cfg.key) = none) :
    (register_hotkey cfg).2 = true ∧
    (∀ pressed : Finset Nat, isHotkeyPressed cfg pressed = false) ∧
    (∀ (st : HKState) (vkCode : Nat) (now : Int), (onKeyDown cfg st vkCode now).2 = []) := by
  refine ⟨rfl, fun pressed => isHotkeyPressed_of_unresolved cfg h pressed, ?_⟩
  intro st vkCode now
  unfold onKeyDown
  rw [if_neg (by rw [isHotkeyPressed_of_unresolved cfg h]; simp)]

/-- Witness for C5 at the unresolvable key name. -/
theorem c5_unresolved_key_never_fires_witness :
    (register_hotkey cfgBadKey).2 = true ∧
    isHotkeyPressed cfgBadKey (insert 123 (insert 160 (insert 162 ∅))) = false := by
  have h := c5_unresolved_key_never_fires cfgBadKey (by decide)
  exact ⟨h.1, h.2.1 _⟩

/-- C6 counterexample: with hook installation failing (installResult
none), `start()` still returns True and the listener reports running,
where the claim requires a False return and a Stopped state. -/
theorem c6_start_failure_counterexample :
    (start initListener none).2 = true ∧
    (start initListener none).1.isRunning = true := by
  decide

/-- C6 amended: `start()` returns True and marks the listener running
regardless of the hook-installation outcome, which is observed only on
the spawned hook thread (and merely logged on failure); the stored hook
handle is whatever the installation produced. -/
theorem c6_start_ignores_install_failure (l : ListenerState) (installResult : Option Nat) :
    (start l installResult).2 = true ∧
    (start l installResult).1.isRunning = true ∧
    (l.isRunning = false → (start l installResult).1.hookId = installResult) := by
  unfold start
  by_cases h : l.isRunning = true
  · simp [h]
  · simp [Bool.eq_false_iff.mpr h]

/-- Witness for C6 on a stopped listener with a failing installation. -/
theorem c6_start_ignores_install_failure_witness :
    (start initListener none).1.hookId = none := by
  have h := c6_start_ignores_install_failure initListener none
  exact h.2.2 rfl

/-- C7 counterexample: `stop()` leaves the stale LCTRL/LSHIFT codes in
`pressed_keys`, and after a fresh `start()` a single F12 key-down emits
a spurious Activated, where the claim requires cleared state and no
spurious event. -/
theorem c7_stale_keys_counterexample :
    (stop listenerAfterModifiers).hk.pressedKeys = insert 160 (insert 162 ∅) ∧
    (run cfgDefault ((start (stop listenerAfterModifiers) (some 2)).1).hk
      [RawEvent.down 123 200]).2 = [HKEvent.activated] := by
  decide

/-- C7 amended: `stop()` resets only `is_running` and the hook handle;
`pressed_keys`, `hotkey_active` and `last_hotkey_time` survive both
`stop()` and a subsequent `start()` unchanged, which is why stale
pressed codes can yield a spurious Activated after a restart. -/
theorem c7_stop_preserves_tracker_state (l : ListenerState) (installResult : Option Nat) :
    (stop l).hk = l.hk ∧
    (stop l).isRunning = false ∧
    ((start l installResult).1).hk = l.hk := by
  unfold stop start
  by_cases h : l.isRunning = true
  · simp [h]
  · simp [Bool.eq_false_iff.mpr h]

/-- C8 counterexample: with `alt: False`, appending a press and release
of left Alt to a trace changes the emitted event sequence — the Alt
key-down re-fires Activated because the predicate is satisfied while
the active flag is false — where the claim requires identical event
sequences. -/
theorem c8_alt_affects_events_counterexample :
    (run cfgCtrlA initState traceAltFree).2 =
      [HKEvent.activated, HKEvent.deactivated] ∧
    (run cfgCtrlA initState traceWithAlt).2 =
      [HKEvent.activated, HKEvent.deactivated, HKEvent.activated] := by
  decide

/-- C8 amended: with `alt: False`, the Alt keys are invisible to the
combination predicate (inserting or erasing either Alt code never
changes `_is_hotkey_pressed`) and to `_was_hotkey_key` (an Alt release
alone emits nothing); full trace equivalence nevertheless fails,
because any key-down — an Alt press included — re-triggers activation
whenever the predicate is satisfied while the active flag is false. -/
theorem c8_alt_invisible_to_predicate (cfg : HKConfig) (h : cfg.alt = false)
    (pressed : Finset Nat) (a : Nat) (ha : a = VK_LMENU ∨ a = VK_RMENU) :
    isHotkeyPressed cfg (insert a pressed) = isHotkeyPressed cfg pressed ∧
    isHotkeyPressed cfg (pressed.erase a) = isHotkeyPressed cfg pressed ∧
    wasHotkeyKey cfg a = false :=
  ⟨isHotkeyPressed_insert_alt cfg h pressed a ha,
   isHotkeyPressed_erase_alt cfg h pressed a ha,
   wasHotkeyKey_alt cfg h a ha⟩

/-- Witness for C8 with left Alt over a held Ctrl+A set. -/
theorem c8_alt_invisible_to_predicate_witness :
    isHotkeyPressed cfgCtrlA (insert 164 (insert 65 (insert 162 ∅))) =
      isHotkeyPressed cfgCtrlA (insert 65 (insert 162 ∅)) ∧
    wasHotkeyKey cfgCtrlA 164 = false := by
  have h := c8_alt_invisible_to_predicate cfgCtrlA rfl (insert 65 (insert 162 ∅)) 164
    (Or.inl rfl)
  exact ⟨h.1, h.2.2⟩

/-- C9 counterexample: releasing RCTRL while LCTRL and A stay held
emits a Deactivated even though the predicate recomputed on the new
pressed set still holds — `_on_key_up` does not consult the recomputed
predicate (and the Python handler returns None, not the boolean). -/
theorem c9_keyup_ignores_predicate_counterexample :
    (onKeyUp cfgCtrlA stBothCtrl 163).2 = [HKEvent.deactivated] ∧
    isHotkeyPressed cfgCtrlA (onKeyUp cfgCtrlA stBothCtrl 163).1.pressedKeys = true := by
  decide

/-- C9 amended: `_on_key_down(code)` adds the code and recomputes the
predicate but only drives its own edge logic with it (an emission
implies the recomputed predicate holds; nothing is returned to
callers); `_on_key_up(code)` removes the code if present and decides
deactivation by `_was_hotkey_key` on the released code, not by
recomputing the predicate, and returns nothing either. -/
theorem c9_handler_contracts (cfg : HKConfig) (st : HKState) (vkCode : Nat) (now : Int) :
    (onKeyDown cfg st vkCode now).1.pressedKeys = insert vkCode st.pressedKeys ∧
    ((onKeyDown cfg st vkCode now).2 ≠ [] →
      isHotkeyPressed cfg (insert vkCode st.pressedKeys) = true) ∧
    (onKeyUp cfg st vkCode).1.pressedKeys = st.pressedKeys.erase vkCode ∧
    ((onKeyUp cfg st vkCode).2 = [HKEvent.deactivated] ↔
      vkCode ∈ st.pressedKeys ∧ wasHotkeyKey cfg vkCode = true) :=
  ⟨onKeyDown_pressedKeys cfg st vkCode now,
   fun hh => onKeyDown_events_ne_nil cfg st vkCode now hh,
   onKeyUp_pressedKeys cfg st vkCode,
   onKeyUp_events_iff cfg st vkCode⟩

/-- Witness for C9: a completing A key-down under Ctrl+A emits, and the
recomputed predicate indeed holds there. -/
theorem c9_handler_contracts_witness :
    isHotkeyPressed cfgCtrlA (insert 65 (insert 162 ∅)) = true := by
  have h := c9_handler_contracts cfgCtrlA ⟨insert 162 ∅, false, 0⟩ 65 100
  exact h.2.1 (by decide)

/-- C10: the combination predicate is monotone under inclusion of
pressed-key sets; consequently a key-down can never break a satisfied
predicate, and `_on_key_down` never emits a Deactivated — only
`_on_key_up` can. -/
theorem c10_predicate_monotone (cfg : HKConfig) {S T : Finset Nat} (hsub : S ⊆ T)
    (hS : isHotkeyPressed cfg S = true) :
    isHotkeyPressed cfg T = true ∧
    (∀ (st : HKState) (vkCode : Nat) (now : Int),
      isHotkeyPressed cfg st.pressedKeys = true →
      isHotkeyPressed cfg (onKeyDown cfg st vkCode now).1.pressedKeys = true) ∧
    (∀ (st : HKState) (vkCode : Nat) (now : Int),
      HKEvent.deactivated ∉ (onKeyDown cfg st vkCode now).2) := by
  refine ⟨isHotkeyPressed_mono cfg hsub hS, ?_, ?_⟩
  · intro st vkCode now hp
    rw [onKeyDown_pressedKeys]
    exact isHotkeyPressed_mono cfg (Finset.subset_insert vkCode st.pressedKeys) hp
  · intro st vkCode now
    rcases onKeyDown_events cfg st vkCode now with hh | hh <;> rw [hh] <;> simp

/-- Witness for C10 at a concrete satisfied subset relation. -/
theorem c10_predicate_monotone_witness :
    isHotkeyPressed cfgCtrlA (insert 164 (insert 65 (insert 162 ∅))) = true ∧
    HKEvent.deactivated ∉ (onKeyDown cfgCtrlA initState 65 100).2 := by
  have h := c10_predicate_monotone cfgCtrlA
    (Finset.subset_insert 164 (insert 65 (insert 162 ∅))) (by decide)
  exact ⟨h.1, h.2.2 initState 65 100⟩

end Shortcut
